import Mathlib

/-!
Verification of the redis-kit coordination primitives (distributed lock,
hybrid lock, fixed-window rate limiter, cooldown gate) against a shallow
embedding of the Go source.

Modelling conventions:
* Time is a logical clock in milliseconds (Nat); every remote operation
  executes atomically at a single instant, which matches the store's
  serialization of conflicting commands on one key.
* A key is live while `now < expiresAt`; a key whose TTL has lapsed is
  indistinguishable from an absent key, as in Redis.
* Redis stores strings; integer-valued strings are modelled by the
  `RVal.int` constructor and all other strings by `RVal.str`, so INCR and
  Lua tonumber behaviour is captured without decimal parsing.
* The `shouldFail` flag mirrors the repository's MockRedis failure switch
  (src/unnamed/part_006, SetShouldFail) and stands for transport failure:
  when set, every remote command errors without touching the data.
* Client-side plumbing that no claim depends on is left out: nil-client
  guards, context deadlines, the duration-to-millisecond conversion (all
  durations here are already the millisecond values the code sends), and
  the key-namespace string concatenation (claims quantify over the final
  key). The seconds granularity of the TTL command used by the naive rate
  limiter is modelled in milliseconds, since no claim inspects that
  version's reset time.
-/

/-- Value stored under one Redis key. `RVal.int n` models the decimal string
for `n` (the representation INCR and the scripts parse); `RVal.str s` models
any other string, such as a 32-hex ownership token. -/
inductive RVal where
  | int : Int → RVal
  | str : String → RVal
deriving DecidableEq

/-- One Redis entry: its value and, when a TTL was set, the absolute
expiry instant in milliseconds. -/
structure Entry where
  value : RVal
  expiresAt : Option Nat
deriving DecidableEq

/-- The remote key-value store. -/
abbrev Store := String → Option Entry

/-- Write (or with `none`, delete) the entry at `key`. -/
def setKey (st : Store) (key : String) (e : Option Entry) : Store :=
  fun k => if k = key then e else st k

/-- The entry at `key` as the store's commands observe it at time `now`:
`none` when the key is absent or its TTL has lapsed. -/
def liveVal (now : Nat) (st : Store) (key : String) : Option Entry :=
  match st key with
  | none => none
  | some e =>
    match e.expiresAt with
    | none => some e
    | some t => if now < t then some e else none

/-- Result of the PTTL command at time `now`: -2 when the key is absent or
expired, -1 when it has no expiry, otherwise the remaining milliseconds. -/
def pttlMs (now : Nat) (st : Store) (key : String) : Int :=
  match liveVal now st key with
  | none => -2
  | some e =>
    match e.expiresAt with
    | none => -1
    | some t => (t : Int) - (now : Int)

/-- The remote Redis endpoint: its data plus the MockRedis failure switch
(src/unnamed/part_006, `shouldFail`), standing for transport failure. -/
structure RedisState where
  data : Store
  shouldFail : Bool

/-- Error taxonomy of the lock package (src/lock/errors.go) plus the
transport-failure class surfaced as a wrapped client error in Go. -/
inductive LockErr where
  | lockNotHeld
  | lockValueMismatch
  | lockValueType
  | transport
deriving DecidableEq

/-- RedisLocker (src/lock/locker_test.go lines 497-514 of the embedded
locker source): the lock TTL in milliseconds and the per-instance
`lockStore` sync.Map from key to the recorded ownership value. The map is
any-typed in Go, so it holds an `RVal`; `Lock` only ever records
`RVal.str token`. -/
structure RedisLocker where
  lockTime : Nat
  lockStore : String → Option RVal

/-- RedisLocker.Lock (embedded locker source lines 527-551): one SETNX of a
fresh token with TTL `lockTime`; on success the token is recorded in
`lockStore`. The randomly generated token is a parameter. Contention is
`ok false`; a transport failure is an error. -/
def RedisLocker.lock (r : RedisLocker) (now : Nat) (token key : String)
    (rs : RedisState) : Except LockErr (Bool × RedisLocker × RedisState) :=
  if rs.shouldFail then .error .transport
  else
    match liveVal now rs.data key with
    | some _ => .ok (false, r, rs)
    | none =>
      .ok (true,
        { r with lockStore := fun k => if k = key then some (.str token) else r.lockStore k },
        { rs with data := setKey rs.data key (some ⟨.str token, some (now + r.lockTime)⟩) })

/-- The unlock compare-and-delete Lua script (embedded locker source lines
575-581, mirrored by MockRedis src/unnamed/part_006 lines 350-369): if the
value at `key` equals the token, delete the key and return 1; otherwise
return 0 without mutating anything. -/
def unlockScriptRun (now : Nat) (key token : String) (st : Store) : Int × Store :=
  match liveVal now st key with
  | some e => if e.value = .str token then (1, setKey st key none) else (0, st)
  | none => (0, st)

/-- RedisLocker.Unlock (embedded locker source lines 555-593): take and
remove the locally recorded value; `ErrLockNotHeld` when none is recorded,
`ErrLockValueType` when it is not a string, then one atomic run of the
unlock script; a script result of 0 is `ErrLockValueMismatch`. -/
def RedisLocker.unlock (r : RedisLocker) (now : Nat) (key : String)
    (rs : RedisState) : Option LockErr × RedisLocker × RedisState :=
  match r.lockStore key with
  | none => (some .lockNotHeld, r, rs)
  | some v =>
    let r' := { r with lockStore := fun k => if k = key then none else r.lockStore k }
    match v with
    | .int _ => (some .lockValueType, r', rs)
    | .str token =>
      if rs.shouldFail then (some .transport, r', rs)
      else
        let res := unlockScriptRun now key token rs.data
        if res.1 = 0 then (some .lockValueMismatch, r', { rs with data := res.2 })
        else (none, r', { rs with data := res.2 })

/-- LocalLocker (src/lock/local.go): the set of held keys; the Go mutex
serializes the operations, which the shallow embedding reflects by making
each operation one atomic step. -/
structure LocalLocker where
  locks : Finset String

/-- LocalLocker.Lock (src/lock/local.go lines 23-35): false when the key is
already held, otherwise mark it held. Never errors. -/
def LocalLocker.lock (l : LocalLocker) (key : String) : Bool × LocalLocker :=
  if key ∈ l.locks then (false, l) else (true, ⟨insert key l.locks⟩)

/-- LocalLocker.Unlock (src/lock/local.go lines 38-45): unconditionally
delete the mark and return nil. -/
def LocalLocker.unlock (l : LocalLocker) (key : String) : Option LockErr × LocalLocker :=
  (none, ⟨l.locks.erase key⟩)

/-- HybridLocker (embedded locker source lines 597-614): an optional
RedisLocker (nil when no client is configured) plus a LocalLocker. -/
structure HybridLocker where
  redisLocker : Option RedisLocker
  localLocker : LocalLocker

/-- HybridLocker.Lock (embedded locker source lines 617-629): try Redis
first when configured; an error-free result is returned as-is, only an
error falls back to the local lock. -/
def HybridLocker.lock (h : HybridLocker) (now : Nat) (token key : String)
    (rs : RedisState) : Bool × HybridLocker × RedisState :=
  match h.redisLocker with
  | some r =>
    match r.lock now token key rs with
    | .ok (b, r', rs') => (b, ⟨some r', h.localLocker⟩, rs')
    | .error _ =>
      let res := h.localLocker.lock key
      (res.1, ⟨some r, res.2⟩, rs)
  | none =>
    let res := h.localLocker.lock key
    (res.1, ⟨none, res.2⟩, rs)

/-- HybridLocker.Unlock (embedded locker source lines 632-656): try Redis
first when configured; on `ErrLockValueMismatch` or `ErrLockValueType`
return that error without touching the local lock; on any other error run
the local unlock and return nil if it succeeded, else the Redis error. -/
def HybridLocker.unlock (h : HybridLocker) (now : Nat) (key : String)
    (rs : RedisState) : Option LockErr × HybridLocker × RedisState :=
  match h.redisLocker with
  | some r =>
    match r.unlock now key rs with
    | (none, r', rs') => (none, ⟨some r', h.localLocker⟩, rs')
    | (some e, r', rs') =>
      if e = .lockValueMismatch ∨ e = .lockValueType then
        (some e, ⟨some r', h.localLocker⟩, rs')
      else
        match h.localLocker.unlock key with
        | (none, l') => (none, ⟨some r', l'⟩, rs')
        | (some _, l') => (some e, ⟨some r', l'⟩, rs')
  | none =>
    let res := h.localLocker.unlock key
    (res.1, ⟨none, res.2⟩, rs)

/-- The rate-limit Lua script (src/unnamed/part_010 lines 170-196, mirrored
by MockRedis lines 371-425): absent key is created with count 1 and TTL
`windowMs`; a count at or above the limit is denied without mutation; below
the limit the count is incremented, a lost TTL is reapplied, and the result
is allowed with the clamped remaining budget. The error case is Lua's
tonumber failing on a non-numeric value. -/
def rateLimitScriptRun (now : Nat) (key : String) (limit windowMs : Int)
    (st : Store) : Except String ((Int × Int × Int) × Store) :=
  match liveVal now st key with
  | none =>
    .ok ((1, limit - 1, windowMs), setKey st key (some ⟨.int 1, some (now + windowMs.toNat)⟩))
  | some e =>
    match e.value with
    | .str _ => .error "value is not an integer"
    | .int current =>
      if limit ≤ current then
        .ok ((0, 0, pttlMs now st key), st)
      else
        let current' := current + 1
        let st' := setKey st key (some ⟨.int current', e.expiresAt⟩)
        let t := pttlMs now st' key
        if t < 0 then
          .ok ((1, max (limit - current') 0, windowMs),
               setKey st' key (some ⟨.int current', some (now + windowMs.toNat)⟩))
        else
          .ok ((1, max (limit - current') 0, t), st')

/-- RateLimiter.CheckLimit, script-based version (src/unnamed/part_010
lines 233-274): validate the window, run the script atomically, clamp a
negative TTL to 0 and return (allowed, remaining, resetAt = now + ttl). -/
def CheckLimit (now : Nat) (key : String) (limit windowMs : Int)
    (rs : RedisState) : Except String (Bool × Int × Nat) × RedisState :=
  if windowMs ≤ 0 then (.error "window must be positive", rs)
  else if rs.shouldFail then (.error "failed to apply rate limit", rs)
  else
    match rateLimitScriptRun now key limit windowMs rs.data with
    | .error m => (.error m, rs)
    | .ok ((a, rem, ttl), st') =>
      let ttl' := if ttl < 0 then (0 : Int) else ttl
      (.ok (decide (a = 1), rem, now + ttl'.toNat), { rs with data := st' })

/-- The cooldown Lua script (src/unnamed/part_010 lines 198-208, mirrored
by MockRedis lines 427-453): SET the sentinel with TTL `cooldownMs` only if
absent; report (1, cooldownMs) on success and (0, remaining ttl) when the
sentinel is already present, leaving it untouched. -/
def cooldownScriptRun (now : Nat) (key : String) (cooldownMs : Int)
    (st : Store) : (Int × Int) × Store :=
  match liveVal now st key with
  | none =>
    ((1, cooldownMs), setKey st key (some ⟨.int 1, some (now + cooldownMs.toNat)⟩))
  | some _ => ((0, pttlMs now st key), st)

/-- RateLimiter.CheckCooldown, script-based version (src/unnamed/part_010
lines 278-314): validate the cooldown, run the script atomically, clamp a
negative TTL to 0 and return (allowed, resetAt = now + ttl). -/
def CheckCooldown (now : Nat) (key : String) (cooldownMs : Int)
    (rs : RedisState) : Except String (Bool × Nat) × RedisState :=
  if cooldownMs ≤ 0 then (.error "cooldown must be positive", rs)
  else if rs.shouldFail then (.error "failed to apply cooldown", rs)
  else
    let res := cooldownScriptRun now key cooldownMs rs.data
    let ttl' := if res.1.2 < 0 then (0 : Int) else res.1.2
    (.ok (decide (res.1.1 = 1), now + ttl'.toNat), { rs with data := res.2 })

/-- RateLimiter.CheckLimit, naive get/set/incr version (src/unnamed/part_010
lines 41-104): GET, on miss SET count 1 with the window TTL, otherwise deny
at the limit, else INCR, reapply a lost TTL, and compute remaining and the
reset time from the TTL command. Reset times are Int because this version
does not clamp a negative TTL. -/
def naiveCheckLimit (now : Nat) (key : String) (limit windowMs : Int)
    (rs : RedisState) : Except String (Bool × Int × Int) × RedisState :=
  if rs.shouldFail then (.error "failed to get rate limit", rs)
  else
    match liveVal now rs.data key with
    | none =>
      (.ok (true, limit - 1, (now : Int) + windowMs),
       { rs with data := setKey rs.data key (some ⟨.int 1, some (now + windowMs.toNat)⟩) })
    | some e =>
      match e.value with
      | .str _ => (.error "failed to get rate limit", rs)
      | .int count =>
        if limit ≤ count then
          (.ok (false, 0, (now : Int) + pttlMs now rs.data key), rs)
        else
          let count' := count + 1
          let st₁ := setKey rs.data key (some ⟨.int count', e.expiresAt⟩)
          let st₂ :=
            if count' = 1 then
              setKey st₁ key (some ⟨.int count', some (now + windowMs.toNat)⟩)
            else if pttlMs now st₁ key ≤ 0 then
              setKey st₁ key (some ⟨.int count', some (now + windowMs.toNat)⟩)
            else st₁
          (.ok (true, max (limit - count') 0, (now : Int) + pttlMs now st₂ key),
           { rs with data := st₂ })

/-- Sequential driver: run the script-based CheckLimit once per listed call
time, threading the Redis state. -/
def runLimitSeq (key : String) (limit windowMs : Int) :
    List Nat → RedisState → List (Except String (Bool × Int × Nat)) × RedisState
  | [], rs => ([], rs)
  | t :: ts, rs =>
    let res := CheckLimit t key limit windowMs rs
    let rest := runLimitSeq key limit windowMs ts res.2
    (res.1 :: rest.1, rest.2)

/-- Sequential driver for the naive CheckLimit. -/
def runLimitSeqNaive (key : String) (limit windowMs : Int) :
    List Nat → RedisState → List (Except String (Bool × Int × Int)) × RedisState
  | [], rs => ([], rs)
  | t :: ts, rs =>
    let res := naiveCheckLimit t key limit windowMs rs
    let rest := runLimitSeqNaive key limit windowMs ts res.2
    (res.1 :: rest.1, rest.2)

/-- Expected outcome of one script-based CheckLimit call when the counter
stands at `count` before the call and the window resets at `resetAt`. -/
def limitOut (limit : Int) (count : Nat) (resetAt : Nat) :
    Except String (Bool × Int × Nat) :=
  if (count : Int) < limit then
    .ok (true, max (limit - ((count : Int) + 1)) 0, resetAt)
  else .ok (false, 0, resetAt)

/-- Expected outputs of `n` sequential script-based calls starting from
counter value `count`. -/
def expectedOuts (limit : Int) (resetAt : Nat) :
    Nat → Nat → List (Except String (Bool × Int × Nat))
  | _, 0 => []
  | count, n + 1 => limitOut limit count resetAt :: expectedOuts limit resetAt (count + 1) n

/-- Expected outcome of one naive CheckLimit call (reset time as Int). -/
def naiveLimitOut (limit : Int) (count : Nat) (resetAt : Int) :
    Except String (Bool × Int × Int) :=
  if (count : Int) < limit then
    .ok (true, max (limit - ((count : Int) + 1)) 0, resetAt)
  else .ok (false, 0, resetAt)

/-- Expected outputs of `n` sequential naive calls starting from counter
value `count`. -/
def expectedOutsNaive (limit : Int) (resetAt : Int) :
    Nat → Nat → List (Except String (Bool × Int × Int))
  | _, 0 => []
  | count, n + 1 => naiveLimitOut limit count resetAt :: expectedOutsNaive limit resetAt (count + 1) n

/-- Project a CheckLimit result to the (allowed, remaining) pair the
refinement claim compares. -/
def resultPair {α : Type} (o : Except String (Bool × Int × α)) :
    Except String (Bool × Int) :=
  o.map fun r => (r.1, r.2.1)

/-- Serialized run of RedisLocker.Lock attempts on one key: one entry per
call, carrying its time and its freshly generated token. An errored attempt
observes acquired = false. -/
def redisLockRun (key : String) :
    List (Nat × String) → RedisLocker → RedisState → List Bool × RedisLocker × RedisState
  | [], r, rs => ([], r, rs)
  | (t, tok) :: ts, r, rs =>
    match r.lock t tok key rs with
    | .ok (b, r', rs') =>
      let rest := redisLockRun key ts r' rs'
      (b :: rest.1, rest.2)
    | .error _ =>
      let rest := redisLockRun key ts r rs
      (false :: rest.1, rest.2)

/-- Serialized run of `n` LocalLocker.Lock calls on one key. -/
def localLockRun (key : String) : Nat → LocalLocker → List Bool × LocalLocker
  | 0, l => ([], l)
  | n + 1, l =>
    let res := l.lock key
    let rest := localLockRun key n res.2
    (res.1 :: rest.1, rest.2)

/-- The empty remote endpoint used by the concrete witnesses. -/
def emptyState : RedisState := ⟨fun _ => none, false⟩

/-- Witness fixture: a store whose key "k" holds a foreign value with no
expiry. -/
def wStoreMismatch : Store := fun k => if k = "k" then some ⟨.str "other", none⟩ else none

/-- Witness fixture: remote endpoint over `wStoreMismatch`. -/
def wRSMismatch : RedisState := ⟨wStoreMismatch, false⟩

/-- Witness fixture: a locker instance that recorded token "tok" for "k". -/
def wLockerTok : RedisLocker := ⟨15000, fun k => if k = "k" then some (RVal.str "tok") else none⟩

/-- Witness fixture: a locker instance with an empty token table. -/
def wLockerEmpty : RedisLocker := ⟨15000, fun _ => none⟩

/-- Witness fixture: hybrid locker wrapping `wLockerTok`. -/
def wHybridTok : HybridLocker := ⟨some wLockerTok, ⟨∅⟩⟩

/-- Witness fixture: hybrid locker wrapping `wLockerEmpty`. -/
def wHybridEmpty : HybridLocker := ⟨some wLockerEmpty, ⟨∅⟩⟩

theorem setKey_same (st : Store) (key : String) (e : Option Entry) :
    setKey st key e key = e := by
  simp [setKey]

theorem setKey_other (st : Store) (key k : String) (e : Option Entry)
    (h : k ≠ key) : setKey st key e k = st k := by
  simp [setKey, h]

theorem liveVal_some (now E : Nat) (st : Store) (key : String) (v : RVal)
    (h : st key = some ⟨v, some E⟩) (hnow : now < E) :
    liveVal now st key = some ⟨v, some E⟩ := by
  unfold liveVal
  rw [h]
  simp [hnow]

theorem liveVal_absent (now : Nat) (st : Store) (key : String)
    (h : st key = none) : liveVal now st key = none := by
  unfold liveVal
  rw [h]

theorem liveVal_expired (now E : Nat) (st : Store) (key : String) (v : RVal)
    (h : st key = some ⟨v, some E⟩) (hnow : E ≤ now) :
    liveVal now st key = none := by
  unfold liveVal
  rw [h]
  simp [Nat.not_lt.mpr hnow]

theorem pttlMs_live (now E : Nat) (st : Store) (key : String) (v : RVal)
    (h : st key = some ⟨v, some E⟩) (hnow : now < E) :
    pttlMs now st key = (E : Int) - (now : Int) := by
  unfold pttlMs
  rw [liveVal_some now E st key v h hnow]

/-- C7: LocalLocker.Unlock on a key that was never locked (or already
unlocked) returns nil and leaves the set of held keys unchanged, and
unlock is idempotent. -/
theorem local_unlock_idempotent (l : LocalLocker) (key : String)
    (h : key ∉ l.locks) :
    (l.unlock key).1 = none ∧ (l.unlock key).2 = l ∧
    ((l.unlock key).2.unlock key).2 = (l.unlock key).2 := by
  refine ⟨rfl, ?_, ?_⟩
  · show LocalLocker.mk (l.locks.erase key) = l
    rw [Finset.erase_eq_of_not_mem h]
  · show LocalLocker.mk ((l.locks.erase key).erase key) = ⟨l.locks.erase key⟩
    rw [Finset.erase_idem]

/-- Witness for C7 at the empty local locker and key "k". -/
theorem local_unlock_idempotent_witness :
    ("k" ∉ (⟨∅⟩ : LocalLocker).locks) ∧
    ((LocalLocker.unlock ⟨∅⟩ "k").1 = none ∧
     (LocalLocker.unlock ⟨∅⟩ "k").2 = (⟨∅⟩ : LocalLocker) ∧
     ((LocalLocker.unlock ⟨∅⟩ "k").2.unlock "k").2 = (LocalLocker.unlock ⟨∅⟩ "k").2) :=
  ⟨by decide, local_unlock_idempotent ⟨∅⟩ "k" (by decide)⟩

/-- C6: CheckLimit with a non-positive window and CheckCooldown with a
non-positive cooldown return a validation error before issuing any remote
call, and the remote store's state is unchanged. -/
theorem nonpositive_duration_validation (now : Nat) (key : String)
    (limit W C : Int) (rs : RedisState) (hW : W ≤ 0) (hC : C ≤ 0) :
    CheckLimit now key limit W rs = (.error "window must be positive", rs) ∧
    CheckCooldown now key C rs = (.error "cooldown must be positive", rs) := by
  constructor
  · unfold CheckLimit
    rw [if_pos hW]
  · unfold CheckCooldown
    rw [if_pos hC]

/-- Witness for C6 at window 0 and cooldown -1. -/
theorem nonpositive_duration_validation_witness :
    ((0 : Int) ≤ 0) ∧ ((-1 : Int) ≤ 0) ∧
    (CheckLimit 0 "k" 5 0 emptyState = (.error "window must be positive", emptyState) ∧
     CheckCooldown 0 "k" (-1) emptyState = (.error "cooldown must be positive", emptyState)) :=
  ⟨by decide, by decide,
   nonpositive_duration_validation 0 "k" 5 0 (-1) emptyState (by decide) (by decide)⟩

/-- C5: HybridLocker.Lock attempts the distributed lock first; an
error-free distributed result (even a contended false) is returned as-is
with the local lock untouched, and only a distributed error triggers the
local fallback. -/
theorem hybrid_lock_distributed_authoritative (h : HybridLocker)
    (r : RedisLocker) (now : Nat) (token key : String) (rs : RedisState)
    (hr : h.redisLocker = some r) :
    (∀ b r' rs', r.lock now token key rs = .ok (b, r', rs') →
       h.lock now token key rs = (b, ⟨some r', h.localLocker⟩, rs')) ∧
    (∀ e, r.lock now token key rs = .error e →
       h.lock now token key rs =
         ((h.localLocker.lock key).1, ⟨some r, (h.localLocker.lock key).2⟩, rs)) := by
  cases h with
  | mk rd ll =>
    cases hr
    constructor
    · intro b r' rs' hres
      simp only [HybridLocker.lock, hres]
    · intro e hres
      simp only [HybridLocker.lock, hres]

/-- Witness for C5 at the empty store, where the distributed attempt
succeeds with true. -/
theorem hybrid_lock_distributed_authoritative_witness :
    (wHybridEmpty.redisLocker = some wLockerEmpty) ∧
    ((∀ b r' rs', RedisLocker.lock wLockerEmpty 0 "tok" "k" emptyState = .ok (b, r', rs') →
        HybridLocker.lock wHybridEmpty 0 "tok" "k" emptyState =
          (b, ⟨some r', wHybridEmpty.localLocker⟩, rs')) ∧
     (∀ e, RedisLocker.lock wLockerEmpty 0 "tok" "k" emptyState = .error e →
        HybridLocker.lock wHybridEmpty 0 "tok" "k" emptyState =
          ((wHybridEmpty.localLocker.lock "k").1,
           ⟨some wLockerEmpty, (wHybridEmpty.localLocker.lock "k").2⟩, emptyState))) :=
  ⟨rfl, hybrid_lock_distributed_authoritative wHybridEmpty wLockerEmpty 0 "tok" "k" emptyState rfl⟩

/-- C2: when the distributed unlock inside HybridLocker.Unlock fails with
the value-mismatch error or the value-type error, HybridLocker.Unlock
returns that same error unchanged, does not attempt a local unlock, and
does not report success. -/
theorem hybrid_unlock_semantic_error (h : HybridLocker) (r : RedisLocker)
    (now : Nat) (key : String) (rs : RedisState) (e : LockErr)
    (r' : RedisLocker) (rs' : RedisState)
    (hr : h.redisLocker = some r)
    (hres : r.unlock now key rs = (some e, r', rs'))
    (hsem : e = LockErr.lockValueMismatch ∨ e = LockErr.lockValueType) :
    h.unlock now key rs = (some e, ⟨some r', h.localLocker⟩, rs') := by
  cases h with
  | mk rd ll =>
    cases hr
    simp only [HybridLocker.unlock, hres]
    rw [if_pos hsem]

/-- Witness for C2: the remote value "other" differs from the recorded
token "tok", the distributed unlock reports LockValueMismatch and the
hybrid unlock returns it with the local set untouched. -/
theorem hybrid_unlock_semantic_error_witness :
    HybridLocker.unlock wHybridTok 0 "k" wRSMismatch =
      (some LockErr.lockValueMismatch,
       ⟨some ⟨15000, fun k => if k = "k" then none else wLockerTok.lockStore k⟩, ⟨∅⟩⟩,
       wRSMismatch) :=
  hybrid_unlock_semantic_error wHybridTok wLockerTok 0 "k" wRSMismatch
    LockErr.lockValueMismatch
    ⟨15000, fun k => if k = "k" then none else wLockerTok.lockStore k⟩
    wRSMismatch rfl rfl (Or.inl rfl)

/-- C9: when the distributed unlock inside HybridLocker.Unlock fails with
any error other than value-mismatch and value-type (lock-not-held,
transport), HybridLocker.Unlock returns nil overall, because the local
unlock fallback never returns an error. -/
theorem hybrid_unlock_other_error_nil (h : HybridLocker) (r : RedisLocker)
    (now : Nat) (key : String) (rs : RedisState) (e : LockErr)
    (hr : h.redisLocker = some r)
    (hres : (r.unlock now key rs).1 = some e)
    (hne : e ≠ LockErr.lockValueMismatch) (hnt : e ≠ LockErr.lockValueType) :
    (h.unlock now key rs).1 = none ∧
    ∀ (l : LocalLocker) (k : String), (l.unlock k).1 = none := by
  refine ⟨?_, fun l k => rfl⟩
  cases h with
  | mk rd ll =>
    cases hr
    rcases hrec : r.unlock now key rs with ⟨oe, r', rs'⟩
    rw [hrec] at hres
    simp only at hres
    subst hres
    simp only [HybridLocker.unlock, hrec]
    rw [if_neg (not_or.mpr ⟨hne, hnt⟩)]
    simp [LocalLocker.unlock]

/-- Witness for C9: no token was recorded for "k", the distributed unlock
fails with LockNotHeld, and the hybrid unlock still reports nil. -/
theorem hybrid_unlock_other_error_nil_witness :
    ((RedisLocker.unlock wLockerEmpty 0 "k" emptyState).1 = some LockErr.lockNotHeld) ∧
    ((HybridLocker.unlock wHybridEmpty 0 "k" emptyState).1 = none ∧
     ∀ (l : LocalLocker) (k : String), (l.unlock k).1 = none) :=
  ⟨rfl, hybrid_unlock_other_error_nil wHybridEmpty wLockerEmpty 0 "k" emptyState
    LockErr.lockNotHeld rfl rfl (by decide) (by decide)⟩

/-- C1: RedisLocker.Unlock removes the remote key only when the value
currently stored there equals the token this instance recorded at its
matching Lock; on a differing value (or an absent or expired-and-reacquired
key) it returns LockValueMismatch and leaves the remote data untouched. -/
theorem unlock_token_discipline (r : RedisLocker) (rs : RedisState)
    (now : Nat) (key token : String)
    (htok : r.lockStore key = some (RVal.str token))
    (hfail : rs.shouldFail = false) :
    (∀ e, liveVal now rs.data key = some e → e.value ≠ RVal.str token →
       (r.unlock now key rs).1 = some LockErr.lockValueMismatch ∧
       (r.unlock now key rs).2.2.data = rs.data) ∧
    (liveVal now rs.data key = none →
       (r.unlock now key rs).1 = some LockErr.lockValueMismatch ∧
       (r.unlock now key rs).2.2.data = rs.data) ∧
    (∀ e, liveVal now rs.data key = some e → e.value = RVal.str token →
       (r.unlock now key rs).1 = none ∧
       (r.unlock now key rs).2.2.data key = none ∧
       ∀ k, k ≠ key → (r.unlock now key rs).2.2.data k = rs.data k) := by
  refine ⟨?_, ?_, ?_⟩
  · intro e he hne
    simp only [RedisLocker.unlock, htok, hfail, unlockScriptRun, he, if_neg hne]
    simp
  · intro he
    simp only [RedisLocker.unlock, htok, hfail, unlockScriptRun, he]
    simp
  · intro e he hv
    simp only [RedisLocker.unlock, htok, hfail, unlockScriptRun, he, if_pos hv]
    simp only [Bool.false_eq_true, if_false]
    refine ⟨?_, ?_, ?_⟩
    · norm_num
    · simp [setKey]
    · intro k hk
      simp [setKey, hk]

/-- Witness for C1: the key "k" holds the foreign value "other" while this
instance recorded "tok"; Unlock reports the mismatch and touches nothing. -/
theorem unlock_token_discipline_witness :
    wLockerTok.lockStore "k" = some (RVal.str "tok") ∧
    wRSMismatch.shouldFail = false ∧
    ((∀ e, liveVal 0 wRSMismatch.data "k" = some e → e.value ≠ RVal.str "tok" →
        (wLockerTok.unlock 0 "k" wRSMismatch).1 = some LockErr.lockValueMismatch ∧
        (wLockerTok.unlock 0 "k" wRSMismatch).2.2.data = wRSMismatch.data) ∧
     (liveVal 0 wRSMismatch.data "k" = none →
        (wLockerTok.unlock 0 "k" wRSMismatch).1 = some LockErr.lockValueMismatch ∧
        (wLockerTok.unlock 0 "k" wRSMismatch).2.2.data = wRSMismatch.data) ∧
     (∀ e, liveVal 0 wRSMismatch.data "k" = some e → e.value = RVal.str "tok" →
        (wLockerTok.unlock 0 "k" wRSMismatch).1 = none ∧
        (wLockerTok.unlock 0 "k" wRSMismatch).2.2.data "k" = none ∧
        ∀ k, k ≠ "k" → (wLockerTok.unlock 0 "k" wRSMismatch).2.2.data k = wRSMismatch.data k)) :=
  ⟨rfl, rfl, unlock_token_discipline wLockerTok wRSMismatch 0 "k" "tok" rfl rfl⟩

theorem checkCooldown_fresh (now : Nat) (key : String) (C : Int) (rs : RedisState)
    (hC : 0 < C) (hfail : rs.shouldFail = false)
    (habs : liveVal now rs.data key = none) :
    CheckCooldown now key C rs =
      (.ok (true, now + C.toNat),
       ⟨setKey rs.data key (some ⟨.int 1, some (now + C.toNat)⟩), rs.shouldFail⟩) := by
  have h1 : ¬ C ≤ 0 := not_le.mpr hC
  have h2 : ¬ C < 0 := not_lt.mpr hC.le
  simp [CheckCooldown, cooldownScriptRun, habs, hfail, h1, h2]

theorem checkCooldown_denied (now E : Nat) (key : String) (C : Int)
    (rs : RedisState) (v : RVal)
    (hC : 0 < C) (hfail : rs.shouldFail = false)
    (hdata : rs.data key = some ⟨v, some E⟩) (hnow : now < E) :
    CheckCooldown now key C rs = (.ok (false, E), rs) := by
  obtain ⟨d, sf⟩ := rs
  subst hfail
  have hl := liveVal_some now E d key v hdata hnow
  have hp := pttlMs_live now E d key v hdata hnow
  have h1 : ¬ C ≤ 0 := not_le.mpr hC
  have h2 : ¬ ((E : Int) - (now : Int) < 0) := by omega
  simp [CheckCooldown, cooldownScriptRun, hl, hp, h1, h2]
  omega

/-- C4: two CheckCooldown calls in immediate succession starting from the
absent state return allowed=true then allowed=false; the denied call
returns resetAt = now + remaining TTL (which is the original expiry) and
does not refresh or extend the sentinel; after the cooldown elapses a
third call returns allowed=true again. -/
theorem checkCooldown_single_admission (key : String) (C : Int)
    (t0 t1 t2 : Nat) (rs : RedisState)
    (hC : 0 < C) (hfail : rs.shouldFail = false) (habs : rs.data key = none)
    (h1 : t1 < t0 + C.toNat) (h2 : t0 + C.toNat < t2) :
    (CheckCooldown t0 key C rs).1 = .ok (true, t0 + C.toNat) ∧
    (CheckCooldown t1 key C (CheckCooldown t0 key C rs).2).1 = .ok (false, t0 + C.toNat) ∧
    (CheckCooldown t1 key C (CheckCooldown t0 key C rs).2).2 = (CheckCooldown t0 key C rs).2 ∧
    (CheckCooldown t2 key C (CheckCooldown t1 key C (CheckCooldown t0 key C rs).2).2).1
      = .ok (true, t2 + C.toNat) := by
  have e0 := checkCooldown_fresh t0 key C rs hC hfail (liveVal_absent t0 rs.data key habs)
  have hd1 : (CheckCooldown t0 key C rs).2.data key
      = some ⟨.int 1, some (t0 + C.toNat)⟩ := by
    rw [e0]
    exact setKey_same rs.data key _
  have hf1 : (CheckCooldown t0 key C rs).2.shouldFail = false := by
    rw [e0]
    exact hfail
  have e1 := checkCooldown_denied t1 (t0 + C.toNat) key C
    (CheckCooldown t0 key C rs).2 (.int 1) hC hf1 hd1 h1
  have e2 := checkCooldown_fresh t2 key C (CheckCooldown t0 key C rs).2 hC hf1
    (liveVal_expired t2 (t0 + C.toNat) (CheckCooldown t0 key C rs).2.data key
      (.int 1) hd1 h2.le)
  refine ⟨by rw [e0], by rw [e1], by rw [e1], ?_⟩
  rw [e1]
  rw [e2]

/-- Witness for C4 with cooldown 1000 ms: calls at 0 and 500 give true then
false, and a call at 2000 gives true again. -/
theorem checkCooldown_single_admission_witness :
    ((0 : Int) < 1000) ∧ (emptyState.shouldFail = false) ∧
    (emptyState.data "k" = none) ∧ (500 < 0 + (1000 : Int).toNat) ∧
    (0 + (1000 : Int).toNat < 2000) ∧
    ((CheckCooldown 0 "k" 1000 emptyState).1 = .ok (true, 0 + (1000 : Int).toNat) ∧
     (CheckCooldown 500 "k" 1000 (CheckCooldown 0 "k" 1000 emptyState).2).1
       = .ok (false, 0 + (1000 : Int).toNat) ∧
     (CheckCooldown 500 "k" 1000 (CheckCooldown 0 "k" 1000 emptyState).2).2
       = (CheckCooldown 0 "k" 1000 emptyState).2 ∧
     (CheckCooldown 2000 "k" 1000
        (CheckCooldown 500 "k" 1000 (CheckCooldown 0 "k" 1000 emptyState).2).2).1
       = .ok (true, 2000 + (1000 : Int).toNat)) :=
  ⟨by decide, rfl, rfl, by decide, by decide,
   checkCooldown_single_admission "k" 1000 0 500 2000 emptyState
     (by decide) rfl rfl (by decide) (by decide)⟩


theorem redisLockRun_held (key : String) (v : RVal) (E : Nat) :
    ∀ (ts : List (Nat × String)) (r : RedisLocker) (rs : RedisState),
      rs.data key = some ⟨v, some E⟩ → (∀ p ∈ ts, p.1 < E) →
      (redisLockRun key ts r rs).1.count true = 0
  | [], _, _, _, _ => rfl
  | (t, tok) :: ts, r, rs, hdata, hts => by
    have hl := liveVal_some t E rs.data key v hdata (hts (t, tok) (List.mem_cons_self _ _))
    have ih := redisLockRun_held key v E ts r rs hdata
      (fun p hp => hts p (List.mem_cons_of_mem _ hp))
    cases hsf : rs.shouldFail with
    | true => simp [redisLockRun, RedisLocker.lock, hsf, ih]
    | false => simp [redisLockRun, RedisLocker.lock, hsf, hl, ih]

theorem redisLockRun_once (key : String) (t0 L : Nat) :
    ∀ (ts : List (Nat × String)) (r : RedisLocker) (rs : RedisState),
      r.lockTime = L → (∀ p ∈ ts, t0 ≤ p.1 ∧ p.1 < t0 + L) →
      (redisLockRun key ts r rs).1.count true ≤ 1
  | [], _, _, _, _ => by simp [redisLockRun]
  | (t, tok) :: ts, r, rs, hLT, hts => by
    have htail : ∀ p ∈ ts, t0 ≤ p.1 ∧ p.1 < t0 + L :=
      fun p hp => hts p (List.mem_cons_of_mem _ hp)
    cases hsf : rs.shouldFail with
    | true =>
      have ih := redisLockRun_once key t0 L ts r rs hLT htail
      simp only [redisLockRun, RedisLocker.lock, hsf]
      simpa using ih
    | false =>
      cases hl : liveVal t rs.data key with
      | some e =>
        have ih := redisLockRun_once key t0 L ts r rs hLT htail
        simp only [redisLockRun, RedisLocker.lock, hsf, hl]
        simpa using ih
      | none =>
        have hzero : (redisLockRun key ts
            { r with lockStore := fun k => if k = key then some (.str tok) else r.lockStore k }
            { rs with data := setKey rs.data key (some ⟨.str tok, some (t + r.lockTime)⟩) }).1.count true = 0 := by
          apply redisLockRun_held key (.str tok) (t + r.lockTime)
          · exact setKey_same rs.data key _
          · intro p hp
            have h1 := (htail p hp).2
            have h2 := (hts (t, tok) (List.mem_cons_self _ _)).1
            rw [hLT]
            omega
        rw [hsf] at hzero
        simp only [redisLockRun, RedisLocker.lock, hsf, hl]
        simpa using Nat.le_of_eq hzero

theorem localLockRun_held (key : String) :
    ∀ (n : Nat) (l : LocalLocker), key ∈ l.locks →
      (localLockRun key n l).1.count true = 0
  | 0, _, _ => rfl
  | n + 1, l, h => by
    have ih := localLockRun_held key n l h
    simp [localLockRun, LocalLocker.lock, h, ih]

theorem localLockRun_once (key : String) :
    ∀ (n : Nat) (l : LocalLocker), (localLockRun key n l).1.count true ≤ 1
  | 0, _ => by simp [localLockRun]
  | n + 1, l => by
    by_cases h : key ∈ l.locks
    · have ih := localLockRun_once key n l
      simp only [localLockRun, LocalLocker.lock, if_pos h]
      simpa using ih
    · have hzero : (localLockRun key n ⟨insert key l.locks⟩).1.count true = 0 :=
        localLockRun_held key n ⟨insert key l.locks⟩ (Finset.mem_insert_self key _)
      simp only [localLockRun, LocalLocker.lock, if_neg h]
      simpa using Nat.le_of_eq hzero

/-- C8: across any serialized set of Lock calls on one key (the remote
store and the local mutex serialize conflicting operations), with all call
times inside one TTL span for the distributed locker, at most one call
observes acquired=true before the lock is released or its TTL expires. -/
theorem lock_mutual_exclusion (key : String) (t0 : Nat)
    (ts : List (Nat × String)) (r : RedisLocker) (rs : RedisState)
    (hts : ∀ p ∈ ts, t0 ≤ p.1 ∧ p.1 < t0 + r.lockTime)
    (l : LocalLocker) (n : Nat) :
    (redisLockRun key ts r rs).1.count true ≤ 1 ∧
    (localLockRun key n l).1.count true ≤ 1 :=
  ⟨redisLockRun_once key t0 r.lockTime ts r rs rfl hts,
   localLockRun_once key n l⟩

/-- Witness for C8: three contenders inside one 10000 ms TTL span acquire
the distributed lock at most once, and four local contenders likewise. -/
theorem lock_mutual_exclusion_witness :
    (∀ p ∈ [((0 : Nat), "a"), (5, "b"), (9, "c")], 0 ≤ p.1 ∧ p.1 < 0 + wLockerEmpty.lockTime) ∧
    ((redisLockRun "k" [((0 : Nat), "a"), (5, "b"), (9, "c")] wLockerEmpty emptyState).1.count true ≤ 1 ∧
     (localLockRun "k" 4 ⟨∅⟩).1.count true ≤ 1) :=
  ⟨by decide,
   lock_mutual_exclusion "k" 0 [((0 : Nat), "a"), (5, "b"), (9, "c")] wLockerEmpty emptyState
     (by decide) ⟨∅⟩ 4⟩

theorem checkLimit_fresh (now : Nat) (key : String) (N W : Int) (rs : RedisState)
    (hW : 0 < W) (hfail : rs.shouldFail = false)
    (habs : liveVal now rs.data key = none) :
    CheckLimit now key N W rs =
      (.ok (true, N - 1, now + W.toNat),
       ⟨setKey rs.data key (some ⟨.int 1, some (now + W.toNat)⟩), rs.shouldFail⟩) := by
  obtain ⟨d, sf⟩ := rs
  subst hfail
  have h1 : ¬ W ≤ 0 := not_le.mpr hW
  have h2 : ¬ W < 0 := not_lt.mpr hW.le
  simp [CheckLimit, rateLimitScriptRun, habs, h1, h2]

theorem checkLimit_allowed (now E : Nat) (key : String) (N W : Int) (c : Int)
    (rs : RedisState) (hW : 0 < W) (hfail : rs.shouldFail = false)
    (hdata : rs.data key = some ⟨.int c, some E⟩) (hnow : now < E) (hc : c < N) :
    CheckLimit now key N W rs =
      (.ok (true, max (N - (c + 1)) 0, E),
       ⟨setKey rs.data key (some ⟨.int (c + 1), some E⟩), rs.shouldFail⟩) := by
  obtain ⟨d, sf⟩ := rs
  subst hfail
  have hl := liveVal_some now E d key (.int c) hdata hnow
  have hp : pttlMs now (setKey d key (some ⟨.int (c + 1), some E⟩)) key
      = (E : Int) - (now : Int) :=
    pttlMs_live now E _ key (.int (c + 1)) (setKey_same d key _) hnow
  have h1 : ¬ W ≤ 0 := not_le.mpr hW
  have h2 : ¬ N ≤ c := not_le.mpr hc
  have h3 : ¬ ((E : Int) - (now : Int) < 0) := by omega
  simp [CheckLimit, rateLimitScriptRun, hl, hp, h1, h2, h3]
  omega

theorem checkLimit_denied (now E : Nat) (key : String) (N W : Int) (c : Int)
    (rs : RedisState) (hW : 0 < W) (hfail : rs.shouldFail = false)
    (hdata : rs.data key = some ⟨.int c, some E⟩) (hnow : now < E) (hc : N ≤ c) :
    CheckLimit now key N W rs = (.ok (false, 0, E), rs) := by
  obtain ⟨d, sf⟩ := rs
  subst hfail
  have hl := liveVal_some now E d key (.int c) hdata hnow
  have hp := pttlMs_live now E d key (.int c) hdata hnow
  have h1 : ¬ W ≤ 0 := not_le.mpr hW
  have h3 : ¬ ((E : Int) - (now : Int) < 0) := by omega
  simp [CheckLimit, rateLimitScriptRun, hl, hp, h1, hc, h3]
  omega

theorem expectedOuts_saturated (N : Int) (E : Nat) :
    ∀ (n c : Nat), N ≤ (c : Int) →
      expectedOuts N E c n = List.replicate n (.ok (false, 0, E))
  | 0, _, _ => rfl
  | n + 1, c, h => by
    have h' : N ≤ ((c + 1 : Nat) : Int) := by push_cast; omega
    simp [expectedOuts, limitOut, not_lt.mpr h,
      expectedOuts_saturated N E n (c + 1) h', List.replicate_succ]

theorem runLimitSeq_active (key : String) (N W : Int) (E : Nat) (hW : 0 < W) :
    ∀ (ts : List Nat) (c : Nat) (rs : RedisState),
      rs.shouldFail = false → rs.data key = some ⟨.int (c : Int), some E⟩ →
      (∀ u ∈ ts, u < E) →
      (runLimitSeq key N W ts rs).1 = expectedOuts N E c ts.length
  | [], _, _, _, _, _ => rfl
  | t :: ts, c, rs, hfail, hdata, hts => by
    have hnow : t < E := hts t (List.mem_cons_self _ _)
    have htail : ∀ u ∈ ts, u < E := fun u hu => hts u (List.mem_cons_of_mem _ hu)
    by_cases hc : (c : Int) < N
    · have e1 := checkLimit_allowed t E key N W (c : Int) rs hW hfail hdata hnow hc
      have hdata' : (setKey rs.data key (some ⟨.int ((c : Int) + 1), some E⟩)) key
          = some ⟨.int ((c + 1 : Nat) : Int), some E⟩ := by
        rw [setKey_same]
        push_cast
        rfl
      have ih := runLimitSeq_active key N W E hW ts (c + 1)
        ⟨setKey rs.data key (some ⟨.int ((c : Int) + 1), some E⟩), rs.shouldFail⟩
        hfail hdata' htail
      simp only [runLimitSeq, e1, List.length_cons]
      rw [ih]
      simp [expectedOuts, limitOut, hc]
    · have hc' : N ≤ (c : Int) := not_lt.mp hc
      have e1 := checkLimit_denied t E key N W (c : Int) rs hW hfail hdata hnow hc'
      have ih := runLimitSeq_active key N W E hW ts c rs hfail hdata htail
      have hc'' : N ≤ ((c + 1 : Nat) : Int) := by push_cast; omega
      simp only [runLimitSeq, e1, List.length_cons]
      rw [ih]
      rw [expectedOuts, expectedOuts_saturated N E ts.length c hc',
        expectedOuts_saturated N E ts.length (c + 1) hc'']
      simp [limitOut, not_lt.mpr hc']

theorem runLimitSeq_from_absent (key : String) (N W : Int) (t0 : Nat)
    (rest : List Nat) (rs : RedisState)
    (hN : 1 ≤ N) (hW : 0 < W) (hfail : rs.shouldFail = false)
    (habs : rs.data key = none)
    (hrest : ∀ u ∈ rest, u < t0 + W.toNat) :
    (runLimitSeq key N W (t0 :: rest) rs).1
      = expectedOuts N (t0 + W.toNat) 0 (rest.length + 1) := by
  have e1 := checkLimit_fresh t0 key N W rs hW hfail (liveVal_absent t0 rs.data key habs)
  have hdata' : (setKey rs.data key (some ⟨.int 1, some (t0 + W.toNat)⟩)) key
      = some ⟨.int ((1 : Nat) : Int), some (t0 + W.toNat)⟩ := by
    rw [setKey_same]
    norm_num
  have ih := runLimitSeq_active key N W (t0 + W.toNat) hW rest 1
    ⟨setKey rs.data key (some ⟨.int 1, some (t0 + W.toNat)⟩), rs.shouldFail⟩
    hfail hdata' hrest
  simp only [runLimitSeq, e1, List.length_cons]
  rw [ih]
  have h0 : (0 : Int) < N := by omega
  have hmax : max (N - ((0 : Int) + 1)) 0 = N - 1 := by omega
  simp [expectedOuts, limitOut, h0, hmax]
  omega

/-- C3: for sequential CheckLimit calls within one window starting from the
absent state, call number i+1 yields the expected output `limitOut N i`;
in particular the Nth call is allowed with remaining 0 and the (N+1)th call
is denied with remaining 0. -/
theorem checkLimit_sequential_boundedness (key : String) (N W : Int)
    (t0 : Nat) (rest : List Nat) (rs : RedisState)
    (hN : 1 ≤ N) (hW : 0 < W) (hfail : rs.shouldFail = false)
    (habs : rs.data key = none)
    (hrest : ∀ u ∈ rest, u < t0 + W.toNat) :
    (runLimitSeq key N W (t0 :: rest) rs).1
      = expectedOuts N (t0 + W.toNat) 0 (rest.length + 1) ∧
    limitOut N (N.toNat - 1) (t0 + W.toNat) = .ok (true, 0, t0 + W.toNat) ∧
    limitOut N N.toNat (t0 + W.toNat) = .ok (false, 0, t0 + W.toNat) := by
  refine ⟨runLimitSeq_from_absent key N W t0 rest rs hN hW hfail habs hrest, ?_, ?_⟩
  · have hcast : ((N.toNat - 1 : Nat) : Int) = N - 1 := by omega
    have hcond : ((N.toNat - 1 : Nat) : Int) < N := by omega
    have hmax : max (N - (((N.toNat - 1 : Nat) : Int) + 1)) 0 = 0 := by
      rw [hcast]
      omega
    simp [limitOut, hcond, hmax]
  · have hcond : ¬ ((N.toNat : Nat) : Int) < N := by omega
    simp [limitOut, hcond]

/-- Witness for C3, the concrete scenario of the spec: CheckLimit with
limit 3 in a one-hour window, called four times, yields allowed sequence
true(rem 2), true(rem 1), true(rem 0), false(rem 0). -/
theorem checkLimit_sequential_boundedness_witness :
    ((1 : Int) ≤ 3) ∧ ((0 : Int) < 3600000) ∧ (emptyState.shouldFail = false) ∧
    (emptyState.data "u1" = none) ∧ (∀ u ∈ [0, 0, 0], u < 0 + (3600000 : Int).toNat) ∧
    ((runLimitSeq "u1" 3 3600000 ([0, 0, 0, 0] : List Nat) emptyState).1
       = expectedOuts 3 (0 + (3600000 : Int).toNat) 0 (([0, 0, 0] : List Nat).length + 1) ∧
     limitOut 3 ((3 : Int).toNat - 1) (0 + (3600000 : Int).toNat)
       = .ok (true, 0, 0 + (3600000 : Int).toNat) ∧
     limitOut 3 (3 : Int).toNat (0 + (3600000 : Int).toNat)
       = .ok (false, 0, 0 + (3600000 : Int).toNat)) :=
  ⟨by decide, by decide, rfl, rfl, by decide,
   checkLimit_sequential_boundedness "u1" 3 3600000 0 [0, 0, 0] emptyState
     (by decide) (by decide) rfl rfl (by decide)⟩

/-- The expected outputs of the concrete witness scenario, spelled out:
true(rem 2), true(rem 1), true(rem 0), false(rem 0). -/
theorem expectedOuts_concrete_scenario :
    expectedOuts 3 3600000 0 4 =
      [.ok (true, 2, 3600000), .ok (true, 1, 3600000),
       .ok (true, 0, 3600000), .ok (false, 0, 3600000)] := by
  simp [expectedOuts, limitOut]

theorem naiveCheckLimit_fresh (now : Nat) (key : String) (N W : Int)
    (rs : RedisState) (hfail : rs.shouldFail = false)
    (habs : liveVal now rs.data key = none) :
    naiveCheckLimit now key N W rs =
      (.ok (true, N - 1, (now : Int) + W),
       ⟨setKey rs.data key (some ⟨.int 1, some (now + W.toNat)⟩), rs.shouldFail⟩) := by
  obtain ⟨d, sf⟩ := rs
  subst hfail
  simp [naiveCheckLimit, habs]

theorem naiveCheckLimit_allowed (now E : Nat) (key : String) (N W : Int)
    (c : Int) (rs : RedisState) (hfail : rs.shouldFail = false)
    (hdata : rs.data key = some ⟨.int c, some E⟩) (hnow : now < E)
    (hc : c < N) (hc1 : 1 ≤ c) :
    naiveCheckLimit now key N W rs =
      (.ok (true, max (N - (c + 1)) 0, (E : Int)),
       ⟨setKey rs.data key (some ⟨.int (c + 1), some E⟩), rs.shouldFail⟩) := by
  obtain ⟨d, sf⟩ := rs
  subst hfail
  have hl := liveVal_some now E d key (.int c) hdata hnow
  have hp : pttlMs now (setKey d key (some ⟨.int (c + 1), some E⟩)) key
      = (E : Int) - (now : Int) :=
    pttlMs_live now E _ key (.int (c + 1)) (setKey_same d key _) hnow
  have h2 : ¬ N ≤ c := not_le.mpr hc
  have h4 : ¬ (c + 1 = 1) := by omega
  have h5 : ¬ ((E : Int) - (now : Int) ≤ 0) := by omega
  simp [naiveCheckLimit, hl, hp, h2, h4, h5]

theorem naiveCheckLimit_denied (now E : Nat) (key : String) (N W : Int)
    (c : Int) (rs : RedisState) (hfail : rs.shouldFail = false)
    (hdata : rs.data key = some ⟨.int c, some E⟩) (hnow : now < E)
    (hc : N ≤ c) :
    naiveCheckLimit now key N W rs = (.ok (false, 0, (E : Int)), rs) := by
  obtain ⟨d, sf⟩ := rs
  subst hfail
  have hl := liveVal_some now E d key (.int c) hdata hnow
  have hp := pttlMs_live now E d key (.int c) hdata hnow
  simp [naiveCheckLimit, hl, hp, hc]

theorem expectedOutsNaive_saturated (N : Int) (E : Int) :
    ∀ (n c : Nat), N ≤ (c : Int) →
      expectedOutsNaive N E c n = List.replicate n (.ok (false, 0, E))
  | 0, _, _ => rfl
  | n + 1, c, h => by
    have h' : N ≤ ((c + 1 : Nat) : Int) := by push_cast; omega
    simp [expectedOutsNaive, naiveLimitOut, not_lt.mpr h,
      expectedOutsNaive_saturated N E n (c + 1) h', List.replicate_succ]

theorem runLimitSeqNaive_active (key : String) (N W : Int) (E : Nat) :
    ∀ (ts : List Nat) (c : Nat) (rs : RedisState),
      rs.shouldFail = false → rs.data key = some ⟨.int (c : Int), some E⟩ →
      1 ≤ c → (∀ u ∈ ts, u < E) →
      (runLimitSeqNaive key N W ts rs).1 = expectedOutsNaive N (E : Int) c ts.length
  | [], _, _, _, _, _, _ => rfl
  | t :: ts, c, rs, hfail, hdata, hc1, hts => by
    have hnow : t < E := hts t (List.mem_cons_self _ _)
    have htail : ∀ u ∈ ts, u < E := fun u hu => hts u (List.mem_cons_of_mem _ hu)
    by_cases hc : (c : Int) < N
    · have e1 := naiveCheckLimit_allowed t E key N W (c : Int) rs hfail hdata hnow hc
        (by exact_mod_cast hc1)
      have hdata' : (setKey rs.data key (some ⟨.int ((c : Int) + 1), some E⟩)) key
          = some ⟨.int ((c + 1 : Nat) : Int), some E⟩ := by
        rw [setKey_same]
        push_cast
        rfl
      have ih := runLimitSeqNaive_active key N W E ts (c + 1)
        ⟨setKey rs.data key (some ⟨.int ((c : Int) + 1), some E⟩), rs.shouldFail⟩
        hfail hdata' (by omega) htail
      simp only [runLimitSeqNaive, e1, List.length_cons]
      rw [ih]
      simp [expectedOutsNaive, naiveLimitOut, hc]
    · have hc' : N ≤ (c : Int) := not_lt.mp hc
      have e1 := naiveCheckLimit_denied t E key N W (c : Int) rs hfail hdata hnow hc'
      have ih := runLimitSeqNaive_active key N W E ts c rs hfail hdata hc1 htail
      have hc'' : N ≤ ((c + 1 : Nat) : Int) := by push_cast; omega
      simp only [runLimitSeqNaive, e1, List.length_cons]
      rw [ih]
      rw [expectedOutsNaive, expectedOutsNaive_saturated N (E : Int) ts.length c hc',
        expectedOutsNaive_saturated N (E : Int) ts.length (c + 1) hc'']
      simp [naiveLimitOut, not_lt.mpr hc']

theorem runLimitSeqNaive_from_absent (key : String) (N W : Int) (t0 : Nat)
    (rest : List Nat) (rs : RedisState)
    (hN : 1 ≤ N) (hW : 0 < W) (hfail : rs.shouldFail = false)
    (habs : rs.data key = none)
    (hrest : ∀ u ∈ rest, u < t0 + W.toNat) :
    (runLimitSeqNaive key N W (t0 :: rest) rs).1
      = expectedOutsNaive N ((t0 + W.toNat : Nat) : Int) 0 (rest.length + 1) := by
  have e1 := naiveCheckLimit_fresh t0 key N W rs hfail (liveVal_absent t0 rs.data key habs)
  have hdata' : (setKey rs.data key (some ⟨.int 1, some (t0 + W.toNat)⟩)) key
      = some ⟨.int ((1 : Nat) : Int), some (t0 + W.toNat)⟩ := by
    rw [setKey_same]
    norm_num
  have ih := runLimitSeqNaive_active key N W (t0 + W.toNat) rest 1
    ⟨setKey rs.data key (some ⟨.int 1, some (t0 + W.toNat)⟩), rs.shouldFail⟩
    hfail hdata' (by omega) hrest
  simp only [runLimitSeqNaive, e1, List.length_cons]
  rw [ih]
  have h0 : (0 : Int) < N := by omega
  have hmax : max (N - ((0 : Int) + 1)) 0 = N - 1 := by omega
  have hcast : ((t0 + W.toNat : Nat) : Int) = (t0 : Int) + W := by omega
  simp [expectedOutsNaive, naiveLimitOut, h0, hmax, hcast]
  omega

theorem expected_pairs_eq (N : Int) (E : Nat) (F : Int) :
    ∀ (n c : Nat),
      (expectedOutsNaive N F c n).map resultPair = (expectedOuts N E c n).map resultPair
  | 0, _ => rfl
  | n + 1, c => by
    have ih := expected_pairs_eq N E F n (c + 1)
    by_cases hc : (c : Int) < N <;>
      simp [expectedOutsNaive, expectedOuts, naiveLimitOut, limitOut, resultPair,
        Except.map, hc, ih]

/-- C10: on any sequential call sequence within one window starting from the
absent state (no expiry during the sequence), the naive get/set/incr
CheckLimit and the atomic script-based CheckLimit return the same
(allowed, remaining) pair on every call. -/
theorem checkLimit_naive_script_equivalent (key : String) (N W : Int)
    (t0 : Nat) (rest : List Nat) (rs : RedisState)
    (hN : 1 ≤ N) (hW : 0 < W) (hfail : rs.shouldFail = false)
    (habs : rs.data key = none)
    (hrest : ∀ u ∈ rest, u < t0 + W.toNat) :
    (runLimitSeqNaive key N W (t0 :: rest) rs).1.map resultPair
      = (runLimitSeq key N W (t0 :: rest) rs).1.map resultPair := by
  rw [runLimitSeqNaive_from_absent key N W t0 rest rs hN hW hfail habs hrest,
    runLimitSeq_from_absent key N W t0 rest rs hN hW hfail habs hrest]
  exact expected_pairs_eq N (t0 + W.toNat) ((t0 + W.toNat : Nat) : Int)
    (rest.length + 1) 0

/-- Witness for C10 at limit 2, window 1000 ms, three calls at times 0, 10,
20: both implementations produce the same (allowed, remaining) pairs. -/
theorem checkLimit_naive_script_equivalent_witness :
    ((1 : Int) ≤ 2) ∧ ((0 : Int) < 1000) ∧ (emptyState.shouldFail = false) ∧
    (emptyState.data "k" = none) ∧ (∀ u ∈ [10, 20], u < 0 + (1000 : Int).toNat) ∧
    ((runLimitSeqNaive "k" 2 1000 (0 :: [10, 20]) emptyState).1.map resultPair
      = (runLimitSeq "k" 2 1000 (0 :: [10, 20]) emptyState).1.map resultPair) :=
  ⟨by decide, by decide, rfl, rfl, by decide,
   checkLimit_naive_script_equivalent "k" 2 1000 0 [10, 20] emptyState
     (by decide) (by decide) rfl rfl (by decide)⟩
